import Mathlib

/-!
Verification of the three-stage image-classification pipeline
(receive / process / send Cloud Functions in package function).

The Go source is embedded shallowly:

* JSON documents are modelled by the inductive type Json; the raw-byte
  request body is modelled as Option Json, where none stands for a body
  that is not valid JSON at all.
* Go struct decoding (encoding/json Unmarshal) is translated field by
  field: a JSON object is folded over, each key is matched against the
  struct field tags (exact match, with a case-insensitive fallback as in
  encoding/json), unknown keys are ignored, null leaves the target value
  unchanged, and a type mismatch is an error.
* A Go string slice is modelled as Option (List String): none is the nil
  slice (marshalled as null), some xs a non-nil slice (marshalled as an
  array).  This distinction is needed because the code and the spec care
  about labels being non-null.
* External effects (Pub/Sub publish acknowledgements, Secret Manager,
  the HTTP transport, the Vision classifier) are oracle parameters of the
  stage functions, matching the design in which each stage is a pure
  function of its input message plus the external service responses.
-/

set_option autoImplicit false

namespace UbiquitousCouscous

/-- A JSON document, as produced by parsing a request or message body. -/
inductive Json where
  | null : Json
  | bool (b : Bool) : Json
  | num (n : Int) : Json
  | str (s : String) : Json
  | arr (elems : List Json) : Json
  | obj (fields : List (String × Json)) : Json

/-- The webhook payload of one event message: type lineEventMessage, JSON tag id. -/
structure lineEventMessage where
  ID : String
  deriving Repr, DecidableEq

/-- One webhook event: type lineEvent, JSON tags replyToken and message. -/
structure lineEvent where
  ReplyToken : String
  LineEventMessage : lineEventMessage
  deriving Repr, DecidableEq

/-- The webhook envelope: type lineWebHook, JSON tag events. -/
structure lineWebHook where
  Events : List lineEvent
  deriving Repr, DecidableEq

/-- Payload of the to-process topic: type processMessage (no JSON tags,
so the marshalled keys are the Go field names). -/
structure processMessage where
  ImageID : String
  ReplyToken : String
  deriving Repr, DecidableEq

/-- Payload of the to-send topic: type sendMessage (no JSON tags).
Labels is a Go string slice: none models the nil slice, some a non-nil one. -/
structure sendMessage where
  ReplyToken : String
  Labels : Option (List String)
  deriving Repr, DecidableEq

/-- Default (zero) values, as encoding/json starts decoding from the
zero value of the target struct. -/
instance : Inhabited lineEventMessage := ⟨⟨""⟩⟩

instance : Inhabited lineEvent := ⟨⟨"", ⟨""⟩⟩⟩

instance : Inhabited lineWebHook := ⟨⟨[]⟩⟩

instance : Inhabited processMessage := ⟨⟨"", ""⟩⟩

instance : Inhabited sendMessage := ⟨⟨"", none⟩⟩

/-- Case-insensitive equality of character lists, mirroring the
case-insensitive key fallback of encoding/json. -/
def charsEqIgnoreCase : List Char → List Char → Bool
  | [], [] => true
  | c :: cs, d :: ds => c.toLower == d.toLower && charsEqIgnoreCase cs ds
  | _, _ => false

/-- encoding/json key matching: the JSON key matches a struct field tag
exactly, or case-insensitively as a fallback. -/
def jsonKeyMatch (k fieldTag : String) : Bool :=
  k == fieldTag || charsEqIgnoreCase k.data fieldTag.data

/-- Decoding a JSON value into a Go string: null leaves the current
value unchanged, a string replaces it, anything else is a type error. -/
def decodeGoString (cur : String) : Json → Except String String
  | .null => .ok cur
  | .str s => .ok s
  | _ => .error "json: cannot unmarshal value into Go value of type string"

/-- Decoding the elements of a JSON array into Go strings (element type
of a string slice): null gives the zero value. -/
def decodeStrElems : List Json → Except String (List String)
  | [] => .ok []
  | x :: rest => do
    let s ← decodeGoString "" x
    let ys ← decodeStrElems rest
    pure (s :: ys)

/-- Decoding a JSON value into a Go string slice: null is the nil slice,
an array is a non-nil slice, anything else is a type error. -/
def decodeGoStringSlice : Json → Except String (Option (List String))
  | .null => .ok none
  | .arr xs => do
    let ys ← decodeStrElems xs
    pure (some ys)
  | _ => .error "json: cannot unmarshal value into Go value of type []string"

/-- Unmarshal into lineEventMessage (field ID, tag id). -/
def decodeLineEventMessage (cur : lineEventMessage) : Json → Except String lineEventMessage
  | .null => .ok cur
  | .obj fields =>
    fields.foldlM (fun acc kv =>
      if jsonKeyMatch kv.1 "id" then do
        let s ← decodeGoString acc.ID kv.2
        pure { ID := s }
      else
        pure acc) cur
  | _ => .error "json: cannot unmarshal value into Go value of type function.lineEventMessage"

/-- Unmarshal into lineEvent (fields ReplyToken tag replyToken,
LineEventMessage tag message). -/
def decodeLineEvent (cur : lineEvent) : Json → Except String lineEvent
  | .null => .ok cur
  | .obj fields =>
    fields.foldlM (fun acc kv =>
      if jsonKeyMatch kv.1 "replyToken" then do
        let s ← decodeGoString acc.ReplyToken kv.2
        pure { acc with ReplyToken := s }
      else if jsonKeyMatch kv.1 "message" then do
        let m ← decodeLineEventMessage acc.LineEventMessage kv.2
        pure { acc with LineEventMessage := m }
      else
        pure acc) cur
  | _ => .error "json: cannot unmarshal value into Go value of type function.lineEvent"

/-- Decoding the elements of a JSON array into lineEvents (element type
of the Events slice); each element starts from the zero value. -/
def decodeLineEvents : List Json → Except String (List lineEvent)
  | [] => .ok []
  | x :: rest => do
    let e ← decodeLineEvent default x
    let es ← decodeLineEvents rest
    pure (e :: es)

/-- Unmarshal into lineWebHook (field Events, tag events).  A null
events value is the nil slice; for this type the nil/empty distinction
is irrelevant downstream, so both are the empty list. -/
def decodeLineWebHook (j : Json) : Except String lineWebHook :=
  match j with
  | .null => .ok default
  | .obj fields =>
    fields.foldlM (fun acc kv =>
      if jsonKeyMatch kv.1 "events" then
        match kv.2 with
        | .null => pure { Events := [] }
        | .arr xs => do
          let es ← decodeLineEvents xs
          pure { Events := es }
        | _ => .error "json: cannot unmarshal value into Go value of type []function.lineEvent"
      else
        pure acc) default
  | _ => .error "json: cannot unmarshal value into Go value of type function.lineWebHook"

/-- Unmarshal into processMessage (untagged fields ImageID, ReplyToken). -/
def decodeProcessMessage (j : Json) : Except String processMessage :=
  match j with
  | .null => .ok default
  | .obj fields =>
    fields.foldlM (fun acc kv =>
      if jsonKeyMatch kv.1 "ImageID" then do
        let s ← decodeGoString acc.ImageID kv.2
        pure { acc with ImageID := s }
      else if jsonKeyMatch kv.1 "ReplyToken" then do
        let s ← decodeGoString acc.ReplyToken kv.2
        pure { acc with ReplyToken := s }
      else
        pure acc) default
  | _ => .error "json: cannot unmarshal value into Go value of type function.processMessage"

/-- Unmarshal into sendMessage (untagged fields ReplyToken, Labels). -/
def decodeSendMessage (j : Json) : Except String sendMessage :=
  match j with
  | .null => .ok default
  | .obj fields =>
    fields.foldlM (fun acc kv =>
      if jsonKeyMatch kv.1 "ReplyToken" then do
        let s ← decodeGoString acc.ReplyToken kv.2
        pure { acc with ReplyToken := s }
      else if jsonKeyMatch kv.1 "Labels" then do
        let ls ← decodeGoStringSlice kv.2
        pure { acc with Labels := ls }
      else
        pure acc) default
  | _ => .error "json: cannot unmarshal value into Go value of type function.sendMessage"

/-- json.Marshal of a processMessage. -/
def marshalProcessMessage (m : processMessage) : Json :=
  .obj [("ImageID", .str m.ImageID), ("ReplyToken", .str m.ReplyToken)]

/-- json.Marshal of a sendMessage: a nil Labels slice marshals to null,
a non-nil one to an array. -/
def marshalSendMessage (m : sendMessage) : Json :=
  .obj [("ReplyToken", .str m.ReplyToken),
        ("Labels", match m.Labels with
          | none => .null
          | some xs => .arr (xs.map Json.str))]

/-- Decidable equality of decode results, used only to evaluate the
model at concrete inputs. -/
instance {ε α : Type} [DecidableEq ε] [DecidableEq α] : DecidableEq (Except ε α)
  | .error e, .error f =>
    if h : e = f then .isTrue (by rw [h]) else .isFalse (by intro hh; cases hh; exact h rfl)
  | .error _, .ok _ => .isFalse (by intro hh; cases hh)
  | .ok _, .error _ => .isFalse (by intro hh; cases hh)
  | .ok a, .ok b =>
    if h : a = b then .isTrue (by rw [h]) else .isFalse (by intro hh; cases hh; exact h rfl)

/-! ### The receive stage -/

/-- The HTTP response written by the receive function. -/
structure httpReply where
  status : Nat
  body : String
  deriving Repr, DecidableEq

/-- Observable outcome of one receive invocation: the broker messages
whose publish was acknowledged, each paired with the topic it went to,
and the HTTP response written. -/
structure receiveOutput where
  published : List (String × processMessage)
  response : httpReply
  deriving Repr, DecidableEq

/-- The processMessage built for one webhook event inside the publish
loop of receive. -/
def eventToProcessMessage (evt : lineEvent) : processMessage :=
  { ImageID := evt.LineEventMessage.ID, ReplyToken := evt.ReplyToken }

/-- The publish loop of receive.  The events are published sequentially;
ack i is the broker acknowledgement of the i-th publish (some id on
success, none on failure).  The loop waits for each acknowledgement and
aborts at the first failure, so on failure the result pairs the messages
already acknowledged with the error. -/
def receiveLoop (ack : Nat → Option String) : Nat → List lineEvent → List processMessage × Option String
  | _, [] => ([], none)
  | i, evt :: rest =>
    match ack i with
    | none => ([], some "pubsub: publish failed")
    | some _ =>
      let r := receiveLoop ack (i + 1) rest
      (eventToProcessMessage evt :: r.1, r.2)

/-- Decoding the raw request body of receive: a body that is not valid
JSON at all (none), or valid JSON that does not fit the envelope, fails
with the error json.Unmarshal reports. -/
def decodeWebhookBody : Option Json → Except String lineWebHook
  | none => .error "invalid character in request body"
  | some j => decodeLineWebHook j

/-- The receive HTTP function.  The request body is given as parsed JSON
(none when the body is not valid JSON), waitProcessTopic is the
configured to-process topic name, and ack is the broker acknowledgement
oracle for the successive publishes. -/
def receive (waitProcessTopic : String) (body : Option Json) (ack : Nat → Option String) :
    receiveOutput :=
  match decodeWebhookBody body with
  | .error e => { published := [], response := { status := 500, body := e } }
  | .ok hook =>
    let r := receiveLoop ack 0 hook.Events
    match r.2 with
    | some e =>
      { published := r.1.map (fun m => (waitProcessTopic, m))
      , response := { status := 500, body := e } }
    | none =>
      { published := r.1.map (fun m => (waitProcessTopic, m))
      , response := { status := 200, body := "receive" } }

/-! ### Go outcomes and the HTTP leaf helpers -/

/-- Outcome of a Go computation: a value, an error value, or a runtime
crash (a nil dereference). -/
inductive goOutcome (α : Type) where
  | ok (a : α)
  | err (msg : String)
  | crash
  deriving Repr, DecidableEq

/-- An outbound HTTP request as built by the leaf helpers.  The body is
the JSON payload attached to the request, none for a nil body. -/
structure httpRequest where
  method : String
  url : String
  headers : List (String × String)
  body : Option Json

/-- A delivered HTTP response: status code and raw body bytes. -/
structure httpResponse where
  statusCode : Nat
  body : List Nat
  deriving Repr, DecidableEq

/-- The GET request built by downloadImage: the content URL templated
with the image identifier, a bearer credential header, and a nil request
body (http.NewRequest is called with a nil body reader). -/
def downloadImageRequest (channelAccessToken imageID : String) : httpRequest :=
  { method := "GET"
  , url := "https://api-data.line.me/v2/bot/message/" ++ imageID ++ "/content"
  , headers := [("Authorization", "Bearer " ++ channelAccessToken)]
  , body := none }

/-- io.ReadAll applied to a request body.  A nil body is a nil reader,
and reading it dereferences nil: a runtime crash.  The non-nil case is
never reached by the code under verification. -/
def readAllRequestBody : Option Json → goOutcome (List Nat)
  | none => .crash
  | some _ => .err "unmodelled: reading a non-nil request body"

/-- The downloadImage helper.  The transport oracle stands for
http.DefaultClient.Do: a network-level failure is an error, otherwise a
response is delivered.  After a delivered response the source calls
io.ReadAll on req.Body (the request body), not on resp.Body. -/
def downloadImage (transport : httpRequest → Except String httpResponse)
    (channelAccessToken imageID : String) : goOutcome (List Nat) :=
  let req := downloadImageRequest channelAccessToken imageID
  match transport req with
  | .error e => .err ("http.DefaultClient.Get failed; " ++ e)
  | .ok _resp => readAllRequestBody req.body

/-- json.Marshal of the replyFormat value sent to the reply endpoint. -/
def marshalReplyFormat (replyToken text : String) : Json :=
  .obj [("replyToken", .str replyToken),
        ("messages", .arr [.obj [("type", .str "text"), ("text", .str text)]])]

/-- The POST request built by sendReply. -/
def replyHttpRequest (channelAccessToken replyToken text : String) : httpRequest :=
  { method := "POST"
  , url := "https://api.line.me/v2/bot/message/reply"
  , headers := [("Authorization", "Bearer " ++ channelAccessToken),
                ("Content-Type", "application/json")]
  , body := some (marshalReplyFormat replyToken text) }

/-- The sendReply helper: marshals the reply, posts it, and returns nil
as soon as a response is delivered; the response status is never
inspected. -/
def sendReply (transport : httpRequest → Except String httpResponse)
    (channelAccessToken replyToken text : String) : goOutcome Unit :=
  match transport (replyHttpRequest channelAccessToken replyToken text) with
  | .error e => .err ("http.DefaultClient.Get failed; " ++ e)
  | .ok _resp => .ok ()

/-! ### The process stage -/

/-- One label annotation returned by the Vision classifier. -/
structure entityAnnotation where
  description : String
  deriving Repr, DecidableEq

/-- analyzeImage: ask the classifier oracle for at most 10 labels
(DetectLabels is called with maxResults 10) and collect the label
descriptions in the order returned, starting from an empty non-nil
slice. -/
def analyzeImage (detect : List Nat → Nat → Except String (List entityAnnotation))
    (imageBytes : List Nat) : Except String (Option (List String)) :=
  match detect imageBytes 10 with
  | .error e => .error ("vision.ImageAnnotatorClient.DetectLabels failed; " ++ e)
  | .ok labels => .ok (some (labels.foldl (fun results l => results ++ [l.description]) []))

/-- External collaborators of one process invocation: the secret store,
the downloadImage outcome for a given credential and image id, the
Vision classifier, and the acknowledgement of the single publish.  The
stage is a pure function of its input message plus these responses. -/
structure procEnv where
  accessSecret : String → Except String String
  fetchImage : String → String → goOutcome (List Nat)
  detect : List Nat → Nat → Except String (List entityAnnotation)
  publishAck : Option String

/-- Observable outcome of one process invocation: the messages whose
publish was acknowledged, each paired with its topic, and the invocation
result. -/
structure processOutput where
  published : List (String × sendMessage)
  result : goOutcome Unit

/-- The process function.  The broker payload is given as parsed JSON
(none when the envelope or its inner data cannot be decoded). -/
def process (env : procEnv) (waitSendTopic : String) (input : Option Json) : processOutput :=
  match input with
  | none => { published := [], result := .err "json.Unmarshal failed" }
  | some j =>
    match decodeProcessMessage j with
    | .error e => { published := [], result := .err ("json.Unmarshal failed; " ++ e) }
    | .ok procMsg =>
      match env.accessSecret "channel-access-token" with
      | .error e => { published := [], result := .err e }
      | .ok channelAccessToken =>
        match env.fetchImage channelAccessToken procMsg.ImageID with
        | .crash => { published := [], result := .crash }
        | .err e => { published := [], result := .err e }
        | .ok image =>
          match analyzeImage env.detect image with
          | .error e => { published := [], result := .err e }
          | .ok labels =>
            let msg : sendMessage := { ReplyToken := procMsg.ReplyToken, Labels := labels }
            match env.publishAck with
            | none => { published := [], result := .err "" }
            | some _ => { published := [(waitSendTopic, msg)], result := .ok () }

/-- Two process invocations on the same message, modelling an
at-least-once redelivery of the same broker payload. -/
def processTwice (env : procEnv) (waitSendTopic : String) (input : Option Json) :
    processOutput × processOutput :=
  (process env waitSendTopic input, process env waitSendTopic input)

/-! ### The send stage -/

/-- strings.Join from the Go standard library, on a Go string slice:
the nil slice and the empty slice both join to the empty string. -/
def goStringsJoin (elems : Option (List String)) (sep : String) : String :=
  match elems with
  | none => ""
  | some [] => ""
  | some (x :: rest) => rest.foldl (fun acc s => acc ++ sep ++ s) x

/-- Modelled from the spec: the reply text is the labels joined with a
single newline between consecutive entries; an empty list yields the
empty string.  Compared below against the join performed by the code. -/
def joinWithNewline : List String → String
  | [] => ""
  | [x] => x
  | x :: y :: rest => x ++ "\n" ++ joinWithNewline (y :: rest)

/-- External collaborators of one send invocation: the secret store and
the sendReply outcome for a given credential, reply token and text. -/
structure sendEnv where
  accessSecret : String → Except String String
  replyOutcome : String → String → String → goOutcome Unit

/-- Observable outcome of one send invocation: the reply calls made,
each recording the credential, reply token and text passed to sendReply,
and the invocation result. -/
structure sendOutput where
  replyCalls : List (String × String × String)
  result : goOutcome Unit

/-- The send function.  The broker payload is given as parsed JSON
(none when the envelope or its inner data cannot be decoded). -/
def send (env : sendEnv) (input : Option Json) : sendOutput :=
  match input with
  | none => { replyCalls := [], result := .err "json.Unmarshal failed" }
  | some j =>
    match decodeSendMessage j with
    | .error e => { replyCalls := [], result := .err ("json.Unmarshal failed; " ++ e) }
    | .ok sendMsg =>
      let text := goStringsJoin sendMsg.Labels "\n"
      match env.accessSecret "channel-access-token" with
      | .error e => { replyCalls := [], result := .err e }
      | .ok channelAccessToken =>
        { replyCalls := [(channelAccessToken, sendMsg.ReplyToken, text)]
        , result := env.replyOutcome channelAccessToken sendMsg.ReplyToken text }

/-- A concrete collaborator environment for evaluating the process
stage: every external call succeeds. -/
def procEnvC : procEnv :=
  { accessSecret := fun _ => .ok "token0"
  , fetchImage := fun _ _ => .ok [7, 7, 7]
  , detect := fun _ _ => .ok [⟨"cat"⟩, ⟨"outdoor"⟩]
  , publishAck := some "m1" }

/-- A concrete collaborator environment for evaluating the send stage. -/
def sendEnvC : sendEnv :=
  { accessSecret := fun _ => .ok "token0"
  , replyOutcome := fun _ _ _ => .ok () }

/-! ### Sanity checks of the JSON embedding on concrete documents -/

example : decodeProcessMessage (marshalProcessMessage ⟨"img1", "r1"⟩) = .ok ⟨"img1", "r1"⟩ := by
  decide

example : decodeSendMessage (marshalSendMessage ⟨"r1", some ["cat", "outdoor"]⟩)
    = .ok ⟨"r1", some ["cat", "outdoor"]⟩ := by
  decide

example : decodeLineWebHook
    (Json.obj [("events", Json.arr [Json.obj [("replyToken", Json.str "r1"),
      ("message", Json.obj [("id", Json.str "img1")])]])])
    = .ok ⟨[⟨"r1", ⟨"img1"⟩⟩]⟩ := by
  decide

example : decodeLineWebHook (Json.num 5)
    = .error "json: cannot unmarshal value into Go value of type function.lineWebHook" := by
  decide

/-! ### Helper lemmas -/

/-- When every publish is acknowledged, the publish loop converts each
event into its processMessage, in order, and reports no error. -/
theorem receiveLoop_all_acked (ack : Nat → Option String) (es : List lineEvent) (k : Nat)
    (h : ∀ i, (ack i).isSome) :
    receiveLoop ack k es = (es.map eventToProcessMessage, none) := by
  induction es generalizing k with
  | nil => rfl
  | cons evt rest ih =>
    cases hk : ack k with
    | none => have h1 := h k; rw [hk] at h1; cases h1
    | some ackId => simp [receiveLoop, hk, ih (k + 1)]

/-- Conversely, when the publish loop reports no error, every publish in
the batch was acknowledged and each event was published. -/
theorem receiveLoop_acked_of_no_error (ack : Nat → Option String) (es : List lineEvent) (k : Nat)
    (h : (receiveLoop ack k es).2 = none) :
    (receiveLoop ack k es).1 = es.map eventToProcessMessage ∧
      ∀ i, i < es.length → (ack (k + i)).isSome := by
  induction es generalizing k with
  | nil => exact ⟨rfl, fun i hi => absurd hi (Nat.not_lt_zero i)⟩
  | cons evt rest ih =>
    cases hk : ack k with
    | none => rw [receiveLoop, hk] at h ⊢; cases h
    | some ackId =>
      rw [receiveLoop, hk] at h ⊢
      have htail := ih (k + 1) h
      refine ⟨by simp [htail.1], ?_⟩
      intro i hi
      cases i with
      | zero => rw [Nat.add_zero, hk]; rfl
      | succ i' =>
        have hi' : i' < rest.length := Nat.lt_of_succ_lt_succ hi
        have := htail.2 i' hi'
        rwa [show k + (i' + 1) = k + 1 + i' by omega]

/-- The label-collecting loop of analyzeImage appends one description
per annotation, so it computes the map of descriptions. -/
theorem foldl_append_description (labels : List entityAnnotation) (acc : List String) :
    labels.foldl (fun results l => results ++ [l.description]) acc
      = acc ++ labels.map entityAnnotation.description := by
  induction labels generalizing acc with
  | nil => simp
  | cons l rest ih => simp [ih]

/-- When the classifier answers, analyzeImage returns the non-nil list
of its label descriptions, in the order returned. -/
theorem analyzeImage_ok (detect : List Nat → Nat → Except String (List entityAnnotation))
    (imageBytes : List Nat) (anns : List entityAnnotation)
    (h : detect imageBytes 10 = .ok anns) :
    analyzeImage detect imageBytes = .ok (some (anns.map entityAnnotation.description)) := by
  simp [analyzeImage, h, foldl_append_description]

/-- analyzeImage never returns a nil label slice. -/
theorem analyzeImage_isSome (detect : List Nat → Nat → Except String (List entityAnnotation))
    (imageBytes : List Nat) (labels : Option (List String))
    (h : analyzeImage detect imageBytes = .ok labels) : labels.isSome = true := by
  unfold analyzeImage at h
  cases hd : detect imageBytes 10 with
  | error e => rw [hd] at h; cases h
  | ok anns => rw [hd] at h; cases h; rfl

/-- The fold inside strings.Join agrees with the spec-side join. -/
theorem foldl_join_newline (rest : List String) (x : String) :
    rest.foldl (fun acc s => acc ++ "\n" ++ s) x = joinWithNewline (x :: rest) := by
  induction rest generalizing x with
  | nil => rfl
  | cons y ys ih =>
    rw [List.foldl_cons, ih (x ++ "\n" ++ y)]
    cases ys with
    | nil => rfl
    | cons z zs => simp [joinWithNewline, String.append_assoc]

/-- strings.Join with the newline separator computes the spec-side join
of the underlying list, with the nil slice treated as the empty list. -/
theorem goStringsJoin_newline (labels : Option (List String)) :
    goStringsJoin labels "\n" = joinWithNewline (labels.getD []) := by
  cases labels with
  | none => rfl
  | some l =>
    cases l with
    | nil => rfl
    | cons x rest => exact foldl_join_newline rest x

/-- Monadic bind on a successful Except value. -/
theorem except_bind_ok {ε α β : Type} (a : α) (f : α → Except ε β) :
    (Except.ok a : Except ε α) >>= f = f a := rfl

/-- Monadic bind on a failed Except value. -/
theorem except_bind_error {ε α β : Type} (e : ε) (f : α → Except ε β) :
    (Except.error e : Except ε α) >>= f = .error e := rfl

/-- pure in the Except monad is ok. -/
theorem except_pure_eq_ok {ε α : Type} (a : α) :
    (pure a : Except ε α) = .ok a := rfl

/-- Decoding a marshalled string list succeeds and is the identity. -/
theorem decodeStrElems_map_str (xs : List String) :
    decodeStrElems (xs.map Json.str) = .ok xs := by
  induction xs with
  | nil => rfl
  | cons x rest ih => simp [decodeStrElems, decodeGoString, ih, except_bind_ok]

/-! ### Claims -/

/-- C1: for every well-formed webhook envelope with N events, receive
publishes exactly N process messages to the to-process topic, each
carrying the event's message id and reply token unchanged, and it writes
HTTP 200 with the acknowledgment body only after every publish in the
batch has been acknowledged by the broker. -/
theorem receive_publishes_every_event (topic : String) (j : Json) (hook : lineWebHook)
    (ack : Nat → Option String) (hdec : decodeLineWebHook j = .ok hook) :
    ((∀ i, (ack i).isSome) →
      receive topic (some j) ack =
        { published := hook.Events.map (fun evt =>
            (topic, { ImageID := evt.LineEventMessage.ID, ReplyToken := evt.ReplyToken }))
        , response := { status := 200, body := "receive" } })
    ∧ ((receive topic (some j) ack).response.status = 200 →
        (receive topic (some j) ack).published = hook.Events.map (fun evt =>
            (topic, { ImageID := evt.LineEventMessage.ID, ReplyToken := evt.ReplyToken })) ∧
        (receive topic (some j) ack).published.length = hook.Events.length ∧
        ∀ i, i < hook.Events.length → (ack i).isSome) := by
  constructor
  · intro hack
    simp [receive, decodeWebhookBody, hdec,
      receiveLoop_all_acked ack hook.Events 0 hack, eventToProcessMessage]
  · intro h200
    cases hr : (receiveLoop ack 0 hook.Events).2 with
    | some e =>
      have h500 : (receive topic (some j) ack).response.status = 500 := by
        simp [receive, decodeWebhookBody, hdec, hr]
      rw [h200] at h500
      exact absurd h500 (by decide)
    | none =>
      have hok := receiveLoop_acked_of_no_error ack hook.Events 0 hr
      refine ⟨?_, ?_, ?_⟩
      · simp [receive, decodeWebhookBody, hdec, hr, hok.1, eventToProcessMessage]
      · simp [receive, decodeWebhookBody, hdec, hr, hok.1]
      · intro i hi
        have h := hok.2 i hi
        rwa [Nat.zero_add] at h

/-- C1 witness: a two-event envelope with every publish acknowledged. -/
theorem receive_publishes_every_event_check :
    receive "wait-process"
      (some (Json.obj [("events", Json.arr
        [Json.obj [("replyToken", Json.str "r1"),
                   ("message", Json.obj [("id", Json.str "img1")])],
         Json.obj [("replyToken", Json.str "r2"),
                   ("message", Json.obj [("id", Json.str "img2")])]])]))
      (fun _ => some "ackId") =
      { published := [("wait-process", ⟨"img1", "r1"⟩), ("wait-process", ⟨"img2", "r2"⟩)]
      , response := { status := 200, body := "receive" } } :=
  (receive_publishes_every_event "wait-process" _ ⟨[⟨"r1", ⟨"img1"⟩⟩, ⟨"r2", ⟨"img2"⟩⟩]⟩
    (fun _ => some "ackId") (by decide)).1 (fun _ => rfl)

/-- C2: when decode, secret fetch, image download and classification all
succeed, process publishes to the to-send topic exactly one send message
whose reply token equals the input's and whose labels are the
classifier's label descriptions in the classifier's own order, the
classifier having been asked for at most 10 labels. -/
theorem process_publishes_single_classified (env : procEnv) (topic : String) (j : Json)
    (m : processMessage) (tok : String) (img : List Nat) (anns : List entityAnnotation)
    (ackId : String)
    (hdec : decodeProcessMessage j = .ok m)
    (hsec : env.accessSecret "channel-access-token" = .ok tok)
    (himg : env.fetchImage tok m.ImageID = .ok img)
    (hcls : env.detect img 10 = .ok anns)
    (hpub : env.publishAck = some ackId) :
    (process env topic (some j)).published =
      [(topic, { ReplyToken := m.ReplyToken
               , Labels := some (anns.map entityAnnotation.description) })] ∧
    (process env topic (some j)).result = .ok () := by
  have hana := analyzeImage_ok env.detect img anns hcls
  constructor <;> simp [process, hdec, hsec, himg, hana, hpub]

/-- C2 witness: a concrete process message against procEnvC. -/
theorem process_publishes_single_classified_check :
    (process procEnvC "wait-send" (some (marshalProcessMessage ⟨"img1", "r1"⟩))).published =
      [("wait-send", ⟨"r1", some ["cat", "outdoor"]⟩)] ∧
    (process procEnvC "wait-send" (some (marshalProcessMessage ⟨"img1", "r1"⟩))).result =
      .ok () :=
  process_publishes_single_classified procEnvC "wait-send" _ ⟨"img1", "r1"⟩ "token0"
    [7, 7, 7] [⟨"cat"⟩, ⟨"outdoor"⟩] "m1" (by decide) rfl rfl rfl rfl

/-- C3: the reply text passed to sendReply equals the labels joined with
a single newline between consecutive entries, the empty string for empty
labels, and the reply call is still made in that case. -/
theorem send_joins_labels_with_newline (env : sendEnv) (j : Json) (m : sendMessage)
    (tok : String)
    (hdec : decodeSendMessage j = .ok m)
    (hsec : env.accessSecret "channel-access-token" = .ok tok) :
    (send env (some j)).replyCalls =
      [(tok, m.ReplyToken, joinWithNewline (m.Labels.getD []))] ∧
    (m.Labels.getD [] = [] →
      (send env (some j)).replyCalls = [(tok, m.ReplyToken, "")]) := by
  have h1 : (send env (some j)).replyCalls = [(tok, m.ReplyToken, goStringsJoin m.Labels "\n")] := by
    simp [send, hdec, hsec]
  rw [goStringsJoin_newline] at h1
  refine ⟨h1, fun he => ?_⟩
  rw [h1, he]
  rfl

/-- C3 witness: two labels join to a newline-separated text, the empty
label list joins to the empty string and the reply call is still made. -/
theorem send_joins_labels_with_newline_check :
    ((send sendEnvC (some (marshalSendMessage ⟨"r1", some ["cat", "outdoor"]⟩))).replyCalls =
      [("token0", "r1", "cat\noutdoor")]) ∧
    ((send sendEnvC (some (marshalSendMessage ⟨"r2", some []⟩))).replyCalls =
      [("token0", "r2", "")]) :=
  ⟨(send_joins_labels_with_newline sendEnvC _ ⟨"r1", some ["cat", "outdoor"]⟩ "token0"
      (by decide) rfl).1,
   (send_joins_labels_with_newline sendEnvC _ ⟨"r2", some []⟩ "token0"
      (by decide) rfl).2 rfl⟩

/-- C4: a request body that does not decode as the webhook envelope
makes receive respond HTTP 500 with an error body and publish nothing. -/
theorem receive_500_on_malformed (topic : String) (body : Option Json)
    (ack : Nat → Option String) (e : String)
    (h : decodeWebhookBody body = .error e) :
    (receive topic body ack).published = [] ∧
    (receive topic body ack).response = { status := 500, body := e } := by
  constructor <;> simp [receive, h]

/-- C4 witness: a body that is not valid JSON, and a JSON body of the
wrong shape, both publish nothing and get a 500. -/
theorem receive_500_on_malformed_check :
    ((receive "wait-process" none (fun _ => some "ackId")).published = [] ∧
      (receive "wait-process" none (fun _ => some "ackId")).response =
        { status := 500, body := "invalid character in request body" }) ∧
    ((receive "wait-process" (some (Json.num 5)) (fun _ => some "ackId")).published = []) :=
  ⟨receive_500_on_malformed "wait-process" none (fun _ => some "ackId") _ rfl,
   (receive_500_on_malformed "wait-process" (some (Json.num 5)) (fun _ => some "ackId")
      "json: cannot unmarshal value into Go value of type function.lineWebHook" (by decide)).1⟩

/-- C5: the downloadImage request is a GET to the content URL templated
with the image identifier carrying the bearer credential header, but on
a delivered response the function reads the request body (nil) instead
of the response body: it crashes on a nil reader and never returns the
response bytes.  This contradicts the claim that the response body bytes
are returned, and is a slip in the code (the read was meant to be from
resp.Body, as the variable name respBytes shows). -/
theorem downloadImage_never_returns_response_body :
    (downloadImageRequest "token0" "img1").method = "GET" ∧
    (downloadImageRequest "token0" "img1").url =
      "https://api-data.line.me/v2/bot/message/img1/content" ∧
    (downloadImageRequest "token0" "img1").headers = [("Authorization", "Bearer token0")] ∧
    downloadImage (fun _ => .ok { statusCode := 200, body := [1, 2, 3] }) "token0" "img1" =
      .crash ∧
    downloadImage (fun _ => .ok { statusCode := 200, body := [1, 2, 3] }) "token0" "img1" ≠
      .ok [1, 2, 3] := by
  refine ⟨rfl, by decide, by decide, rfl, by decide⟩

/-- C6 counterexample: the reply endpoint answers with status 500, yet
sendReply reports success, so a non-2xx response is not surfaced as a
failure. -/
theorem sendReply_accepts_non2xx :
    sendReply (fun _ => .ok { statusCode := 500, body := [] }) "token0" "r1" "hello" =
      .ok () := rfl

/-- C6 amended: only transport-level failures of the outbound call are
surfaced as errors; a delivered HTTP response is never checked for its
status code — sendReply reports success for every delivered response,
and the outcome of downloadImage does not depend on the response at
all. -/
theorem leaf_calls_surface_only_transport_failures
    (channelAccessToken replyToken text imageID e : String) (resp resp2 : httpResponse) :
    sendReply (fun _ => .error e) channelAccessToken replyToken text =
      .err ("http.DefaultClient.Get failed; " ++ e) ∧
    downloadImage (fun _ => .error e) channelAccessToken imageID =
      .err ("http.DefaultClient.Get failed; " ++ e) ∧
    sendReply (fun _ => .ok resp) channelAccessToken replyToken text = .ok () ∧
    downloadImage (fun _ => .ok resp) channelAccessToken imageID =
      downloadImage (fun _ => .ok resp2) channelAccessToken imageID :=
  ⟨rfl, rfl, rfl, rfl⟩

/-- C7: decoding the JSON serialization of a process message or a send
message yields the value serialized; serialization is lossless for
ImageID, ReplyToken and Labels. -/
theorem message_serialization_roundtrip :
    (∀ m : processMessage, decodeProcessMessage (marshalProcessMessage m) = .ok m) ∧
    (∀ m : sendMessage, decodeSendMessage (marshalSendMessage m) = .ok m) := by
  constructor
  · intro m; rfl
  · intro m
    obtain ⟨rt, labels⟩ := m
    cases labels with
    | none => rfl
    | some xs =>
      have k1 : jsonKeyMatch "ReplyToken" "ReplyToken" = true := by decide
      have k2 : jsonKeyMatch "Labels" "ReplyToken" = false := by decide
      have k3 : jsonKeyMatch "Labels" "Labels" = true := by decide
      simp [marshalSendMessage, decodeSendMessage, List.foldlM_cons, List.foldlM_nil,
        k1, k2, k3, decodeGoString, decodeGoStringSlice, decodeStrElems_map_str,
        except_bind_ok, except_pure_eq_ok]

/-- C8: redelivery of the same broker payload to the process stage, with
the same external-service responses, produces identical published
messages and an identical result — the stage holds no state across
invocations. -/
theorem process_redelivery_deterministic (env : procEnv) (topic : String)
    (input : Option Json) :
    (processTwice env topic input).1.published = (processTwice env topic input).2.published ∧
    (processTwice env topic input).1.result = (processTwice env topic input).2.result :=
  ⟨rfl, rfl⟩

/-- C9: every send message published by the process stage has a non-nil
(possibly empty) labels slice. -/
theorem process_labels_never_null (env : procEnv) (topic : String) (input : Option Json) :
    ∀ p ∈ (process env topic input).published, p.2.Labels.isSome = true := by
  intro p hp
  cases input with
  | none => simp [process] at hp
  | some j =>
    cases hdec : decodeProcessMessage j with
    | error e => simp [process, hdec] at hp
    | ok procMsg =>
      cases hsec : env.accessSecret "channel-access-token" with
      | error e => simp [process, hdec, hsec] at hp
      | ok tok =>
        cases himg : env.fetchImage tok procMsg.ImageID with
        | crash => simp [process, hdec, hsec, himg] at hp
        | err e => simp [process, hdec, hsec, himg] at hp
        | ok image =>
          cases hana : analyzeImage env.detect image with
          | error e => simp [process, hdec, hsec, himg, hana] at hp
          | ok labels =>
            cases hack : env.publishAck with
            | none => simp [process, hdec, hsec, himg, hana, hack] at hp
            | some ackId =>
              have hsome := analyzeImage_isSome env.detect image labels hana
              simp [process, hdec, hsec, himg, hana, hack] at hp
              rw [hp]
              simpa using hsome

/-- C9 witness: the message published for a concrete input has a
non-nil labels slice. -/
theorem process_labels_never_null_check :
    (("wait-send", (⟨"r1", some ["cat", "outdoor"]⟩ : sendMessage)) :
      String × sendMessage).2.Labels.isSome = true :=
  process_labels_never_null procEnvC "wait-send"
    (some (marshalProcessMessage ⟨"img1", "r1"⟩))
    ("wait-send", ⟨"r1", some ["cat", "outdoor"]⟩) (by decide)

/-- C10: receive validates no event fields: any body that decodes as a
webhook envelope yields one published message per event, an event object
with absent replyToken and message fields decodes to empty strings, and
the message published for it carries empty strings. -/
theorem receive_skips_field_validation (topic : String) (ack : Nat → Option String)
    (hack : ∀ i, (ack i).isSome) :
    (∀ j hook, decodeLineWebHook j = .ok hook →
      (receive topic (some j) ack).published.length = hook.Events.length) ∧
    decodeLineEvent default (Json.obj []) =
      .ok { ReplyToken := "", LineEventMessage := { ID := "" } } ∧
    (receive topic (some (Json.obj [("events", Json.arr [Json.obj []])])) ack).published =
      [(topic, { ImageID := "", ReplyToken := "" })] := by
  refine ⟨?_, by decide, ?_⟩
  · intro j hook hdec
    simp [receive, decodeWebhookBody, hdec, receiveLoop_all_acked ack hook.Events 0 hack]
  · have hdec : decodeLineWebHook (Json.obj [("events", Json.arr [Json.obj []])]) =
        .ok ⟨[⟨"", ⟨""⟩⟩]⟩ := by decide
    simp [receive, decodeWebhookBody, hdec,
      receiveLoop_all_acked ack [⟨"", ⟨""⟩⟩] 0 hack, eventToProcessMessage]

/-- C10 witness: an envelope whose single event has no fields still gets
one message published, with empty strings. -/
theorem receive_skips_field_validation_check :
    (receive "wait-process" (some (Json.obj [("events", Json.arr [Json.obj []])]))
      (fun _ => some "ackId")).published = [("wait-process", ⟨"", ""⟩)] :=
  (receive_skips_field_validation "wait-process" (fun _ => some "ackId") (fun _ => rfl)).2.2

end UbiquitousCouscous
